import Mathlib

/-!
# Task manager: REST backend and dashboard form

A shallow embedding of `backend/server.js` (the Express route handlers, the
`authenticate` middleware and the two Sequelize models) and of the form state
of `Dashboard` in `frontend/src/App.js`.

Conventions of the embedding

* The SQLite database is a `Store`: the rows of `Users` and `Tasks` in the
  order of their row ids plus the two `AUTOINCREMENT` counters.  The columns `createdAt` and
  `updatedAt` are not represented.
* A JSON body is a record of `Field`s, so that a missing key, an explicit
  `null` and a value are told apart.  Text values are strings and identifiers
  are natural numbers; a number of a body is the value `JSON.parse` gives it and
  the path parameter `:id` is the number it denotes.
* The rendering of a date by the `DATEONLY` type is a parameter (`DateOnly`).
  The end of the 64-bit row ids under auto-increment is not represented.
* `bcryptjs` and `jsonwebtoken` are parameters (`Bcrypt`, `Jwt`) that carry the
  part of their contract the handlers rely on.  The random salt of
  `bcrypt.hash` and the clock read by `jwt.sign` / `jwt.verify` are explicit
  arguments.
* A handler returns the response it sends together with the next store.  A
  rejected promise that no `try` block catches is the response `unhandled`.
-/

namespace TaskManager

/-! ## Data model -/

/-- A property of a JSON object: the key is missing, holds `null`, or holds a value. -/
inductive Field (α : Type) where
  | absent : Field α
  | null : Field α
  | val : α → Field α
  deriving DecidableEq, Repr

/-- The value an attribute takes when a row is built: a missing key takes the
column default, `null` stays `null`. -/
def Field.withDefault {α : Type} (d : Option α) : Field α → Option α
  | .absent => d
  | .null => none
  | .val a => some a

/-- The value an attribute takes when a row is updated: a missing key keeps the
old value. -/
def Field.merge {α : Type} (old : Option α) : Field α → Option α
  | .absent => old
  | .null => none
  | .val a => some a

/-- Row of the `Users` table (`sequelize.define('User', ...)`). -/
structure User where
  id : Nat
  username : String
  password : String
  deriving DecidableEq, Repr

/-- Row of the `Tasks` table (`sequelize.define('Task', ...)` with the foreign
key `UserId` added by `Task.belongsTo(User)`).  `title` is `allowNull: false`;
the other columns are nullable.  The two `ENUM` columns are plain text in
SQLite and are not checked on write. -/
structure Task where
  id : Nat
  title : String
  description : Option String
  dueDate : Option String
  priority : Option String
  status : Option String
  UserId : Option Nat
  deriving DecidableEq, Repr

/-- The database: both tables and their `AUTOINCREMENT` counters. -/
structure Store where
  users : List User
  tasks : List Task
  userSeq : Nat
  taskSeq : Nat
  deriving DecidableEq, Repr

/-- The database before any request. -/
def Store.empty : Store := { users := [], tasks := [], userSeq := 0, taskSeq := 0 }

/-- The body of a request on `/tasks`: the keys that are attributes of `Task`.
Keys that are not attributes are dropped by Sequelize and are not represented. -/
structure Body where
  id : Field Nat := .absent
  title : Field String := .absent
  description : Field String := .absent
  dueDate : Field String := .absent
  priority : Field String := .absent
  status : Field String := .absent
  UserId : Field Nat := .absent
  deriving DecidableEq, Repr

/-- The body of `/register` and `/login`; `none` is a missing key. -/
structure Credentials where
  username : Option String
  password : Option String
  deriving DecidableEq, Repr

/-- The errors the database layer raises. -/
inductive DbError where
  | notNull : DbError
  | mismatch : DbError
  | unique : DbError
  | foreignKey : DbError
  deriving DecidableEq, Repr

/-- The JSON payload of a response. -/
inductive Reply where
  | error (message : String) : Reply
  | dbError (err : DbError) : Reply
  | task (t : Task) : Reply
  | tasks (ts : List Task) : Reply
  | success (removed : Bool) : Reply
  | created (message : String) (userId : Nat) : Reply
  | session (token : String) (username : String) : Reply
  deriving DecidableEq, Repr

/-- What a handler sends: a status code with a JSON payload, or nothing because
its promise was rejected outside any `try` block. -/
inductive Response where
  | json (status : Nat) (body : Reply) : Response
  | unhandled : Response
  deriving DecidableEq, Repr

/-! ## The database layer -/

/-- The largest number of a list, `0` when it is empty. -/
def maxId (ids : List Nat) : Nat := ids.foldr max 0

/-- The row id SQLite gives to a row inserted without one into an
`AUTOINCREMENT` table: one more than every id used so far. -/
def nextRowId (seq : Nat) (ids : List Nat) : Nat := max seq (maxId ids) + 1

/-- Whether a foreign key value breaks the reference to `Users(id)`. -/
def fkViolated (s : Store) : Option Nat → Bool
  | none => false
  | some u => !(s.users.any (fun r => r.id == u))

/-- `User.create({ username, password })`. -/
def User.create (s : Store) (username : Option String) (password : String) :
    Except DbError (User × Store) :=
  match username with
  | none => .error .notNull
  | some name =>
    if s.users.any (fun r => r.username == name) then .error .unique
    else
      let row : User :=
        { id := nextRowId s.userSeq (s.users.map (fun r => r.id)), username := name,
          password := password }
      .ok (row, { s with users := s.users ++ [row], userSeq := row.id })

/-- `User.findOne({ where: { username } })`. -/
def User.findOne (s : Store) (username : String) : Option User :=
  s.users.find? (fun r => r.username == username)

/-- The part of the `DATEONLY` type the models use: `format v` is the text
`moment(v).format('YYYY-MM-DD')`, which for the empty string is
`Invalid date`. -/
structure DateOnly where
  format : String → String
  format_empty : format "" = "Invalid date"

/-- The value `DATEONLY` keeps on an instance when an attribute is set: an
empty string is kept, any other string is rendered. -/
def DateOnly.sanitize (d : DateOnly) (v : String) : String :=
  if v = "" then v else d.format v

/-- A `dueDate` of a body as the instance takes it. -/
def DateOnly.onInstance (d : DateOnly) : Field String → Field String
  | .absent => .absent
  | .null => .null
  | .val v => .val (d.sanitize v)

/-- The row written for an instance: the date is rendered when it is bound to
the statement. -/
def Task.stored (d : DateOnly) (t : Task) : Task :=
  { t with dueDate := t.dueDate.map d.format }

/-- The first number that is not a row id of SQLite. -/
def rowIdLimit : Nat := 2 ^ 63

/-- Whether SQLite refuses the primary key of a body with a datatype mismatch:
a number that is not a 64-bit row id. -/
def Task.idRefused : Field Nat → Bool
  | .val i => decide (rowIdLimit ≤ i)
  | _ => false

/-- The primary key of an inserted row whose supplied key, if any, is not
refused (`Task.idRefused`): the one supplied, else the next row id. -/
def Task.insertId (s : Store) : Field Nat → Nat
  | .val i => i
  | _ => nextRowId s.taskSeq (s.tasks.map (fun r => r.id))

/-- The table after an insert: rows are kept in the order of their row ids,
which is the order in which a query lists them. -/
def Task.insertRow (row : Task) : List Task → List Task
  | [] => [row]
  | r :: rs => if row.id < r.id then row :: r :: rs else r :: Task.insertRow row rs

/-- `Task.create(values)`: validation of `title`, then the insert with the
column defaults, the primary key and the foreign key enforced by SQLite.  The
result is the instance, which the handler sends, and the store with the row
written for it. -/
def Task.create (d : DateOnly) (s : Store) (values : Body) : Except DbError (Task × Store) :=
  match values.title with
  | .absent => .error .notNull
  | .null => .error .notNull
  | .val title =>
    let id := Task.insertId s values.id
    if Task.idRefused values.id then .error .mismatch
    else if s.tasks.any (fun r => r.id == id) then .error .unique
    else if fkViolated s (values.UserId.withDefault none) then .error .foreignKey
    else
      let task : Task :=
        { id := id, title := title,
          description := values.description.withDefault none,
          dueDate := (d.onInstance values.dueDate).withDefault none,
          priority := values.priority.withDefault (some "Medium"),
          status := values.status.withDefault (some "Pending"),
          UserId := values.UserId.withDefault none }
      .ok (task, { s with tasks := Task.insertRow (task.stored d) s.tasks,
                          taskSeq := max s.taskSeq id })

/-- The `where` object of a query on `Tasks`; `none` is a key that is not set. -/
structure Where where
  id : Option Nat := none
  UserId : Option Nat := none
  status : Option String := none
  priority : Option String := none
  deriving DecidableEq, Repr

/-- Whether a row satisfies every equality of a `where` object. -/
def Where.holds (w : Where) (t : Task) : Bool :=
  (match w.id with
    | none => true
    | some i => t.id == i) &&
  (match w.UserId with
    | none => true
    | some u => t.UserId == some u) &&
  (match w.status with
    | none => true
    | some v => t.status == some v) &&
  (match w.priority with
    | none => true
    | some v => t.priority == some v)

/-- `Task.findAll({ where })`. -/
def Task.findAll (s : Store) (w : Where) : List Task := s.tasks.filter w.holds

/-- `Task.findOne({ where })`. -/
def Task.findOne (s : Store) (w : Where) : Option Task := s.tasks.find? w.holds

/-- `Task.destroy({ where })`: the number of rows removed and the next store. -/
def Task.destroy (s : Store) (w : Where) : Nat × Store :=
  ((s.tasks.filter w.holds).length,
   { s with tasks := s.tasks.filter (fun t => !(w.holds t)) })

/-- The instance after `set(values)`: every attribute present in `values` is
taken over, the foreign key `UserId` included. -/
def Task.assign (d : DateOnly) (t : Task) (values : Body) : Task :=
  { id := t.id,
    title := (match values.title with
      | .val x => x
      | _ => t.title),
    description := values.description.merge t.description,
    dueDate := (d.onInstance values.dueDate).merge t.dueDate,
    priority := values.priority.merge t.priority,
    status := values.status.merge t.status,
    UserId := values.UserId.merge t.UserId }

/-- The primary key of the instance after `set(values)`: a key that is set
(not `0`) is never replaced; over the key `0` an `id` of the body is taken. -/
def Task.updateId (t : Task) : Field Nat → Nat
  | .val k => if t.id = 0 then k else t.id
  | _ => t.id

/-- A row after the `UPDATE` statement: the columns named in `values` are
set, the date in its rendering; the other columns stay. -/
def Task.written (d : DateOnly) (r : Task) (values : Body) : Task :=
  { Task.assign d r values with
    dueDate := (match values.dueDate with
      | .absent => r.dueDate
      | .null => none
      | .val v => some (d.format (d.sanitize v))) }

/-- `task.update(values)`: `set(values)` on the instance, validation of
`title`, then `UPDATE ... WHERE id = <key of the instance>`.  The result is the
instance, which the handler sends, and the store after the statement. -/
def Task.update (d : DateOnly) (s : Store) (t : Task) (values : Body) :
    Except DbError (Task × Store) :=
  match values.title with
  | .null => .error .notNull
  | _ =>
    let id := Task.updateId t values.id
    let task : Task := { Task.assign d t values with id := id }
    if s.tasks.any (fun r => r.id == id) && fkViolated s (values.UserId.withDefault none) then
      .error .foreignKey
    else
      .ok (task, { s with
        tasks := s.tasks.map (fun r => if r.id == id then Task.written d r values else r) })

/-! ## The task routes, after `authenticate` has set `req.userId` -/

/-- JavaScript truthiness of a query-string value. -/
def truthy : Option String → Bool
  | none => false
  | some v => v != ""

/-- Handler of `GET /tasks`. -/
def listTasks (s : Store) (userId : Nat) (status priority : Option String) : Response :=
  let w0 : Where := { UserId := some userId }
  let w1 : Where := if truthy status then { w0 with status := status } else w0
  let w2 : Where := if truthy priority then { w1 with priority := priority } else w1
  .json 200 (.tasks (Task.findAll s w2))

/-- Handler of `POST /tasks`. -/
def createTask (d : DateOnly) (s : Store) (userId : Nat) (body : Body) : Response × Store :=
  match Task.create d s { body with UserId := .val userId } with
  | .ok (task, s') => (.json 200 (.task task), s')
  | .error err => (.json 500 (.dbError err), s)

/-- Handler of `PUT /tasks/:id`. -/
def updateTask (d : DateOnly) (s : Store) (userId : Nat) (id : Nat) (body : Body) :
    Response × Store :=
  match Task.findOne s { id := some id, UserId := some userId } with
  | none => (.json 404 (.error "Task not found"), s)
  | some task =>
    match Task.update d s task body with
    | .ok (task', s') => (.json 200 (.task task'), s')
    | .error _ => (.unhandled, s)

/-- Handler of `DELETE /tasks/:id`. -/
def deleteTask (s : Store) (userId : Nat) (id : Nat) : Response × Store :=
  let result := Task.destroy s { id := some id, UserId := some userId }
  (.json 200 (.success (result.1 != 0)), result.2)

/-- An authenticated call of the task API: the route, the `req.userId` set by
`authenticate`, and the request data. -/
inductive Call where
  | list (userId : Nat) (status priority : Option String) : Call
  | create (userId : Nat) (body : Body) : Call
  | update (userId : Nat) (id : Nat) (body : Body) : Call
  | delete (userId : Nat) (id : Nat) : Call
  deriving DecidableEq, Repr

/-- The response to one authenticated call and the store it leaves. -/
def step (d : DateOnly) (s : Store) : Call → Response × Store
  | .list userId status priority => (listTasks s userId status priority, s)
  | .create userId body => createTask d s userId body
  | .update userId id body => updateTask d s userId id body
  | .delete userId id => deleteTask s userId id

/-- The store after a sequence of authenticated calls. -/
def run (d : DateOnly) (s : Store) (calls : List Call) : Store :=
  calls.foldl (fun acc c => (step d acc c).2) s

/-! ## Authentication -/

/-- The constant `SECRET_KEY`. -/
def SECRET_KEY : String := "super_secret_key_for_demo"

/-- The part of `bcryptjs` the handlers use: `hash` of a password under a salt
and `compare` of a password with a digest.  A digest is accepted for the
password it was made from and differs from it. -/
structure Bcrypt where
  hash : String → String → String
  compare : String → String → Bool
  compare_hash : ∀ password salt, compare password (hash password salt) = true
  hash_ne : ∀ password salt, hash password salt ≠ password

/-- The payload of a token: the user identifier with the issue and expiry
times in seconds. -/
structure Claims where
  id : Nat
  iat : Nat
  exp : Nat
  deriving DecidableEq, Repr

/-- The part of `jsonwebtoken` the handlers use: `encode` signs a payload under
a key, `decode` returns the payload of a token whose signature checks under the
key.  A token that decodes is not empty and has no blank in it. -/
structure Jwt where
  encode : Claims → String → String
  decode : String → String → Option Claims
  decode_encode : ∀ c key, decode (encode c key) key = some c
  decode_nospace : ∀ tok key c, decode tok key = some c → ' ' ∉ tok.data
  decode_empty : ∀ key, decode "" key = none

/-- `jwt.sign({ id }, key, { expiresIn: '2h' })` at time `now`. -/
def Jwt.sign (jwt : Jwt) (id : Nat) (key : String) (now : Nat) : String :=
  jwt.encode { id := id, iat := now, exp := now + 7200 } key

/-- `jwt.verify(token, key, callback)` at time `now`: `none` is the callback
called with an error (no token, bad token, or `now` at or past `exp`). -/
def Jwt.verify (jwt : Jwt) (token : Option String) (key : String) (now : Nat) : Option Claims :=
  match token with
  | none => none
  | some tok =>
    if tok = "" then none
    else
      match jwt.decode tok key with
      | none => none
      | some c => if c.exp ≤ now then none else some c

/-- `header.split(" ")`. -/
def splitSpace (header : String) : List String :=
  (header.data.splitOn ' ').map String.mk

/-- The middleware `authenticate`: either the response it sends itself, or the
`req.userId` it hands to the next handler. -/
def authenticate (jwt : Jwt) (now : Nat) (authorization : Option String) : Except Response Nat :=
  match authorization with
  | none => .error (.json 403 (.error "No token provided"))
  | some token =>
    if token = "" then .error (.json 403 (.error "No token provided"))
    else
      match jwt.verify ((splitSpace token)[1]?) SECRET_KEY now with
      | none => .error (.json 401 (.error "Unauthorized"))
      | some decoded => .ok decoded.id

/-- Handler of `POST /register`; `salt` is the salt `bcrypt.hash` draws. -/
def register (lib : Bcrypt) (s : Store) (body : Credentials) (salt : String) :
    Response × Store :=
  match body.password with
  | none => (.json 400 (.error "Username likely taken"), s)
  | some password =>
    let hashedPassword := lib.hash password salt
    match User.create s body.username hashedPassword with
    | .ok (user, s') => (.json 200 (.created "User created" user.id), s')
    | .error _ => (.json 400 (.error "Username likely taken"), s)

/-- Handler of `POST /login` at time `now`. -/
def login (lib : Bcrypt) (jwt : Jwt) (s : Store) (body : Credentials) (now : Nat) : Response :=
  match body.username with
  | none => .unhandled
  | some username =>
    match User.findOne s username with
    | none => .json 401 (.error "Invalid credentials")
    | some user =>
      match body.password with
      | none => .unhandled
      | some password =>
        if !(lib.compare password user.password) then .json 401 (.error "Invalid credentials")
        else .json 200 (.session (jwt.sign user.id SECRET_KEY now) username)

/-! ## The dashboard form (`Dashboard` in `App.js`) -/

namespace Dashboard

/-- The JSON object the server sends for a row. -/
def toJson (t : Task) : Body :=
  { id := .val t.id, title := .val t.title,
    description := (match t.description with
      | none => .null
      | some v => .val v),
    dueDate := (match t.dueDate with
      | none => .null
      | some v => .val v),
    priority := (match t.priority with
      | none => .null
      | some v => .val v),
    status := (match t.status with
      | none => .null
      | some v => .val v),
    UserId := (match t.UserId with
      | none => .null
      | some v => .val v) }

/-- The object the form is reset to. -/
def blankTask : Body :=
  { title := .val "", priority := .val "Medium", status := .val "Pending", dueDate := .val "" }

/-- The state of the component: `tasks`, `filter`, `newTask` and `editId`. -/
structure State where
  tasks : List Task
  filterStatus : String
  filterPriority : String
  newTask : Body
  editId : Option Nat
  deriving DecidableEq, Repr

/-- The state of the first render. -/
def init : State :=
  { tasks := [], filterStatus := "", filterPriority := "", newTask := blankTask, editId := none }

/-- A request the component sends with axios. -/
inductive Http where
  | get (status priority : String) : Http
  | post (body : Body) : Http
  | put (id : Nat) (body : Body) : Http
  | delete (id : Nat) : Http
  deriving DecidableEq, Repr

/-- The function `startEdit`. -/
def startEdit (d : State) (task : Task) : State :=
  { d with newTask := toJson task, editId := some task.id }

/-- The `onChange` handler of the title input. -/
def changeTitle (d : State) (v : String) : State :=
  { d with newTask := { d.newTask with title := .val v } }

/-- The `onChange` handler of the date input. -/
def changeDueDate (d : State) (v : String) : State :=
  { d with newTask := { d.newTask with dueDate := .val v } }

/-- The `onChange` handler of the priority select. -/
def changePriority (d : State) (v : String) : State :=
  { d with newTask := { d.newTask with priority := .val v } }

/-- A change made in one of the three inputs of the form. -/
inductive Change where
  | title (v : String) : Change
  | dueDate (v : String) : Change
  | priority (v : String) : Change
  deriving DecidableEq, Repr

/-- The state after one change in the form. -/
def change (d : State) : Change → State
  | .title v => changeTitle d v
  | .dueDate v => changeDueDate d v
  | .priority v => changePriority d v

/-- The state after a sequence of changes in the form. -/
def changes (d : State) (cs : List Change) : State := cs.foldl change d

/-- The create branch of `saveTask`; `ok` tells whether the awaited request
was answered with a 2xx status. -/
def saveNew (d : State) (ok : Bool) : State × List Http :=
  if ok then ({ d with newTask := blankTask },
    [.post d.newTask, .get d.filterStatus d.filterPriority])
  else (d, [.post d.newTask])

/-- The function `saveTask`: the requests it sends and the state it leaves.
When the awaited request fails the promise is rejected and no setter runs. -/
def saveTask (d : State) (ok : Bool) : State × List Http :=
  match d.editId with
  | none => saveNew d ok
  | some id =>
    if id = 0 then saveNew d ok
    else if ok then ({ d with editId := none, newTask := blankTask },
      [.put id d.newTask, .get d.filterStatus d.filterPriority])
    else (d, [.put id d.newTask])

end Dashboard

/-! ## Invariants of the store -/

/-- The key constraints of the schema: primary keys and usernames are unique. -/
def Store.WF (s : Store) : Prop :=
  (s.tasks.map (fun r => r.id)).Nodup ∧
  (s.users.map (fun r => r.id)).Nodup ∧
  (s.users.map (fun r => r.username)).Nodup

/-- Whether `userId` is the identifier of a stored user. -/
def Store.hasUser (s : Store) (userId : Nat) : Prop := ∃ u ∈ s.users, u.id = userId

/-! ## Sample data -/

/-- A store with two registered users and no task. -/
def twoUsers : Store :=
  { users := [{ id := 1, username := "alice", password := "$pw1" },
              { id := 2, username := "bob", password := "$pw2" }],
    tasks := [], userSeq := 2, taskSeq := 0 }

/-- A task of user 1. -/
def milk : Task :=
  { id := 1, title := "Buy milk", description := none, dueDate := none,
    priority := some "High", status := some "Pending", UserId := some 1 }

/-- The store `twoUsers` with the task `milk`. -/
def withMilk : Store := { twoUsers with tasks := [milk], taskSeq := 1 }

/-- A task whose primary key is `0`. -/
def zeroTask : Task :=
  { id := 0, title := "Zero", description := none, dueDate := none,
    priority := some "Low", status := some "Pending", UserId := some 1 }

/-! ## Instances of the library contracts -/

/-- A small `DateOnly`: every string but the empty one is its own rendering. -/
def plainDates : DateOnly where
  format v := if v = "" then "Invalid date" else v
  format_empty := by decide

/-- A small `Bcrypt`: the digest is the password behind a `$`. -/
def toyBcrypt : Bcrypt where
  hash password _ := "$" ++ password
  compare password digest := digest == "$" ++ password
  compare_hash := by intro password salt; simp
  hash_ne := by
    intro password salt h
    have hlen := congrArg String.length h
    simp only [String.length_append] at hlen
    have h1 : "$".length = 1 := by decide
    omega

/-- A small `Jwt`: the token is a `j` followed by as many `a` as the code of
the payload; the key is not used. -/
def toyJwt : Jwt where
  encode c _ := String.mk ('j' :: List.replicate (Nat.pair c.id (Nat.pair c.iat c.exp)) 'a')
  decode tok _ :=
    match tok.data with
    | [] => none
    | c :: rest =>
      if c = 'j' ∧ rest = List.replicate rest.length 'a' then
        some { id := (Nat.unpair rest.length).1,
               iat := (Nat.unpair (Nat.unpair rest.length).2).1,
               exp := (Nat.unpair (Nat.unpair rest.length).2).2 }
      else none
  decode_encode := by
    intro c key
    simp [Nat.unpair_pair]
  decode_nospace := by
    intro tok key c h
    cases hd : tok.data with
    | nil => simp [hd] at h
    | cons a rest =>
      simp only [hd] at h
      split_ifs at h with hc
      intro hmem
      rcases List.mem_cons.mp hmem with h1 | h1
      · rw [hc.1] at h1; exact absurd h1 (by decide)
      · rw [hc.2] at h1
        exact absurd (List.eq_of_mem_replicate h1) (by decide)
  decode_empty := by intro key; rfl

/-! ## Facts about the database layer -/

theorem le_maxId (ids : List Nat) (i : Nat) (h : i ∈ ids) : i ≤ maxId ids := by
  induction ids with
  | nil => cases h
  | cons a l ih =>
    simp only [maxId, List.foldr_cons]
    rcases List.mem_cons.mp h with h | h
    · subst h; exact Nat.le_max_left _ _
    · exact le_trans (ih h) (Nat.le_max_right _ _)

theorem nextRowId_fresh (seq : Nat) (ids : List Nat) : nextRowId seq ids ∉ ids := by
  intro h
  have h1 := le_maxId ids _ h
  have h2 : maxId ids ≤ max seq (maxId ids) := Nat.le_max_right _ _
  unfold nextRowId at h1
  omega

theorem any_id_eq_false {s : Store} {id : Nat}
    (h : ∀ r ∈ s.tasks, r.id ≠ id) : (s.tasks.any (fun r => r.id == id)) = false := by
  rw [List.any_eq_false]
  intro r hr
  simpa using h r hr

theorem any_auto_id_false (s : Store) :
    (s.tasks.any (fun r => r.id == nextRowId s.taskSeq (s.tasks.map (fun r => r.id)))) = false := by
  apply any_id_eq_false
  intro r hr heq
  exact nextRowId_fresh s.taskSeq (s.tasks.map (fun r => r.id)) (heq ▸ List.mem_map_of_mem _ hr)

theorem fkViolated_of_hasUser {s : Store} {userId : Nat} (h : s.hasUser userId) :
    fkViolated s (some userId) = false := by
  obtain ⟨u, hu, hid⟩ := h
  simp only [fkViolated, Bool.not_eq_false_eq_eq_true, Bool.not_eq_eq_eq_not, Bool.not_false,
    List.any_eq_true]
  exact ⟨u, hu, by simp [hid]⟩

theorem holds_id_owner (id userId : Nat) (t : Task) :
    Where.holds { id := some id, UserId := some userId } t = true ↔
      t.id = id ∧ t.UserId = some userId := by
  simp [Where.holds]

theorem store_empty_WF : Store.empty.WF := by
  simp [Store.WF, Store.empty]

theorem insertRow_perm (row : Task) (l : List Task) :
    (Task.insertRow row l).Perm (row :: l) := by
  induction l with
  | nil => exact List.Perm.refl _
  | cons r rs ih =>
    unfold Task.insertRow
    split_ifs
    · exact List.Perm.refl _
    · exact (ih.cons r).trans (List.Perm.swap row r rs)

theorem task_create_ok {d : DateOnly} {s s' : Store} {values : Body} {t : Task}
    (h : Task.create d s values = .ok (t, s')) :
    s'.tasks = Task.insertRow (t.stored d) s.tasks ∧ s'.users = s.users ∧
      (∀ r ∈ s.tasks, r.id ≠ t.id) := by
  unfold Task.create at h
  cases htitle : values.title with
  | absent => simp [htitle] at h
  | null => simp [htitle] at h
  | val title =>
    simp only [htitle] at h
    split_ifs at h with h0 h1 h2
    simp only [Except.ok.injEq, Prod.mk.injEq] at h
    obtain ⟨ht, hs⟩ := h
    subst ht hs
    refine ⟨rfl, rfl, ?_⟩
    intro r hr heq
    apply h1
    rw [List.any_eq_true]
    exact ⟨r, hr, by simp [heq]⟩

theorem task_update_ok {d : DateOnly} {s s' : Store} {values : Body} {t t' : Task}
    (h : Task.update d s t values = .ok (t', s')) :
    s'.users = s.users ∧
      s'.tasks.map (fun r => r.id) = s.tasks.map (fun r => r.id) := by
  have hmap : ∀ (k : Nat) (l : List Task),
      (l.map (fun r => if r.id == k then Task.written d r values else r)).map (fun r => r.id) =
        l.map (fun r => r.id) := by
    intro k l
    rw [List.map_map]
    apply List.map_congr_left
    intro r _
    by_cases hr : r.id = k
    · simp [hr, Task.written, Task.assign]
    · simp [hr]
  unfold Task.update at h
  cases htitle : values.title with
  | null => simp [htitle] at h
  | absent =>
    simp only [htitle] at h
    split_ifs at h with h1
    simp only [Except.ok.injEq, Prod.mk.injEq] at h
    obtain ⟨ht, hs⟩ := h
    subst ht hs
    exact ⟨rfl, hmap _ _⟩
  | val x =>
    simp only [htitle] at h
    split_ifs at h with h1
    simp only [Except.ok.injEq, Prod.mk.injEq] at h
    obtain ⟨ht, hs⟩ := h
    subst ht hs
    exact ⟨rfl, hmap _ _⟩

theorem user_create_ok {s s' : Store} {username : Option String} {password : String} {u : User}
    (h : User.create s username password = .ok (u, s')) :
    username = some u.username ∧ u.password = password ∧
      u.id = nextRowId s.userSeq (s.users.map (fun r => r.id)) ∧
      (∀ r ∈ s.users, r.username ≠ u.username) ∧
      s'.users = s.users ++ [u] ∧ s'.tasks = s.tasks := by
  unfold User.create at h
  cases username with
  | none => simp at h
  | some name =>
    simp only at h
    split_ifs at h with h1
    simp only [Except.ok.injEq, Prod.mk.injEq] at h
    obtain ⟨hu, hs⟩ := h
    subst hu hs
    refine ⟨rfl, rfl, rfl, ?_, rfl, rfl⟩
    intro r hr heq
    apply h1
    rw [List.any_eq_true]
    exact ⟨r, hr, by simp [heq]⟩

theorem createTask_WF (d : DateOnly) {s : Store} (h : s.WF) (userId : Nat) (body : Body) :
    (createTask d s userId body).2.WF := by
  unfold createTask
  cases heq : Task.create d s { body with UserId := .val userId } with
  | error e => exact h
  | ok p =>
    obtain ⟨t, s'⟩ := p
    obtain ⟨h1, h2, h3⟩ := task_create_ok heq
    refine ⟨?_, ?_, ?_⟩
    · show (s'.tasks.map (fun r => r.id)).Nodup
      rw [h1]
      refine (((insertRow_perm (t.stored d) s.tasks).map (fun r => r.id)).nodup_iff).mpr ?_
      rw [List.map_cons, List.nodup_cons]
      refine ⟨?_, h.1⟩
      intro hmem
      obtain ⟨r, hr, hrid⟩ := List.mem_map.mp hmem
      exact h3 r hr hrid
    · show (s'.users.map (fun r => r.id)).Nodup
      rw [h2]; exact h.2.1
    · show (s'.users.map (fun r => r.username)).Nodup
      rw [h2]; exact h.2.2

theorem updateTask_WF (d : DateOnly) {s : Store} (h : s.WF) (userId id : Nat) (body : Body) :
    (updateTask d s userId id body).2.WF := by
  unfold updateTask
  cases hfind : Task.findOne s { id := some id, UserId := some userId } with
  | none => exact h
  | some task =>
    cases heq : Task.update d s task body with
    | error e => simpa [heq] using h
    | ok p =>
      obtain ⟨t', s'⟩ := p
      obtain ⟨h2, h3⟩ := task_update_ok heq
      simp only [heq]
      refine ⟨?_, ?_, ?_⟩
      · show (s'.tasks.map (fun r => r.id)).Nodup
        rw [h3]; exact h.1
      · show (s'.users.map (fun r => r.id)).Nodup
        rw [h2]; exact h.2.1
      · show (s'.users.map (fun r => r.username)).Nodup
        rw [h2]; exact h.2.2

theorem deleteTask_WF {s : Store} (h : s.WF) (userId id : Nat) :
    (deleteTask s userId id).2.WF := by
  refine ⟨?_, h.2.1, h.2.2⟩
  show ((s.tasks.filter _).map (fun r => r.id)).Nodup
  exact h.1.sublist ((List.filter_sublist _).map _)

theorem step_WF (d : DateOnly) {s : Store} (h : s.WF) (c : Call) : (step d s c).2.WF := by
  cases c with
  | list userId status priority => exact h
  | create userId body => exact createTask_WF d h userId body
  | update userId id body => exact updateTask_WF d h userId id body
  | delete userId id => exact deleteTask_WF h userId id

theorem run_WF (d : DateOnly) {s : Store} (h : s.WF) (calls : List Call) :
    (run d s calls).WF := by
  induction calls generalizing s with
  | nil => exact h
  | cons c cs ih => exact ih (step_WF d h c)

theorem register_WF (lib : Bcrypt) {s : Store} (h : s.WF) (body : Credentials) (salt : String) :
    (register lib s body salt).2.WF := by
  unfold register
  cases hp : body.password with
  | none => exact h
  | some password =>
    cases heq : User.create s body.username (lib.hash password salt) with
    | error e => simpa [heq] using h
    | ok p =>
      obtain ⟨u, s'⟩ := p
      obtain ⟨_, _, hid, hname, husers, htasks⟩ := user_create_ok heq
      simp only [heq]
      refine ⟨?_, ?_, ?_⟩
      · show (s'.tasks.map (fun r => r.id)).Nodup
        rw [htasks]; exact h.1
      · show (s'.users.map (fun r => r.id)).Nodup
        rw [husers, List.map_append, List.nodup_append]
        refine ⟨h.2.1, by simp, ?_⟩
        intro a ha hb
        simp only [List.map_cons, List.map_nil, List.mem_singleton] at hb
        rw [hb, hid] at ha
        exact nextRowId_fresh _ _ ha
      · show (s'.users.map (fun r => r.username)).Nodup
        rw [husers, List.map_append, List.nodup_append]
        refine ⟨h.2.2, by simp, ?_⟩
        intro a ha hb
        simp only [List.map_cons, List.map_nil, List.mem_singleton] at hb
        obtain ⟨r, hr, rfl⟩ := List.mem_map.mp ha
        exact hname r hr hb

/-! ## The task routes -/

/-- C5: `DELETE /tasks/:id` always answers 200 with `success`, which is `true`
exactly when a task with that id owned by the caller was stored; afterwards no
such task is stored, the remaining tasks are the old ones that are not that
task, in the old order, and the users are untouched. -/
theorem deleteTask_contract (s : Store) (userId id : Nat) :
    (∃ b, (deleteTask s userId id).1 = .json 200 (.success b) ∧
      (b = true ↔ ∃ t ∈ s.tasks, t.id = id ∧ t.UserId = some userId)) ∧
    (∀ t ∈ (deleteTask s userId id).2.tasks, ¬(t.id = id ∧ t.UserId = some userId)) ∧
    (∀ t, ¬(t.id = id ∧ t.UserId = some userId) →
      (t ∈ (deleteTask s userId id).2.tasks ↔ t ∈ s.tasks)) ∧
    (deleteTask s userId id).2.tasks =
      s.tasks.filter (fun t => !(t.id == id && t.UserId == some userId)) ∧
    (deleteTask s userId id).2.users = s.users := by
  have hholds : ∀ t : Task, Where.holds { id := some id, UserId := some userId } t =
      (t.id == id && t.UserId == some userId) := by
    intro t; simp [Where.holds]
  have htasks : (deleteTask s userId id).2.tasks =
      s.tasks.filter (fun t => !(t.id == id && t.UserId == some userId)) := by
    show s.tasks.filter _ = _
    congr 1
    funext t
    rw [hholds]
  refine ⟨⟨_, rfl, ?_⟩, ?_, ?_, htasks, rfl⟩
  · show ((s.tasks.filter _).length != 0) = true ↔ _
    rw [bne_iff_ne, Ne, List.length_eq_zero, List.eq_nil_iff_forall_not_mem]
    constructor
    · intro hne
      by_contra hex
      apply hne
      intro t hmem
      rw [List.mem_filter, holds_id_owner] at hmem
      exact hex ⟨t, hmem.1, hmem.2⟩
    · rintro ⟨t, ht, h⟩ hall
      exact hall t (by rw [List.mem_filter, holds_id_owner]; exact ⟨ht, h⟩)
  · intro t ht
    rw [htasks, List.mem_filter] at ht
    have h2 := ht.2
    simp only [Bool.not_eq_true', Bool.and_eq_false_iff, beq_eq_false_iff_ne, ne_eq] at h2
    tauto
  · intro t hnot
    rw [htasks, List.mem_filter]
    constructor
    · exact fun h => h.1
    · intro h
      refine ⟨h, ?_⟩
      simp only [Bool.not_eq_true', Bool.and_eq_false_iff, beq_eq_false_iff_ne, ne_eq]
      tauto

/-- C3 (as amended): `GET /tasks` answers 200 with the stored tasks, in store
order, that are owned by the caller and whose status equals the `status` query
value when that value is given and not empty, and likewise for `priority`; a
query value that is missing or the empty string puts no restriction on its
field. -/
theorem listTasks_filter (s : Store) (userId : Nat) (status priority : Option String) :
    listTasks s userId status priority =
      .json 200 (.tasks (s.tasks.filter (fun t =>
        t.UserId == some userId &&
        (status == none || status == some "" || t.status == status) &&
        (priority == none || priority == some "" || t.priority == priority)))) := by
  dsimp only [listTasks, Task.findAll]
  refine congrArg _ (congrArg _ (List.filter_congr ?_))
  intro t _
  have hb : ∀ x : String, x ≠ "" → (x == "") = false := fun x hx => beq_eq_false_iff_ne.mpr hx
  rcases status with _ | v <;> rcases priority with _ | w
  · simp [truthy, Where.holds]
  · by_cases hw : w = ""
    · simp [truthy, Where.holds, hw]
    · simp [truthy, Where.holds, hw, hb w hw]
  · by_cases hv : v = ""
    · simp [truthy, Where.holds, hv]
    · simp [truthy, Where.holds, hv, hb v hv]
  · by_cases hv : v = "" <;> by_cases hw : w = ""
    · simp [truthy, Where.holds, hv, hw]
    · simp [truthy, Where.holds, hv, hw, hb w hw]
    · simp [truthy, Where.holds, hv, hw, hb v hv]
    · simp [truthy, Where.holds, hv, hw, hb v hv, hb w hw]

/-- C3 (the claim as stated fails): with the status filter `""` the task `milk`,
whose status is `"Pending"`, is returned, whereas no stored task has the status
`""`. -/
theorem listTasks_empty_status_returns_all :
    listTasks withMilk 1 (some "") none = .json 200 (.tasks [milk]) ∧
    withMilk.tasks.filter (fun t => t.UserId == some 1 && t.status == some "") = [] ∧
    milk.status ≠ some "" := by
  decide

theorem updateTask_not_found (d : DateOnly) {s : Store} {userId id : Nat} (body : Body)
    (h : ∀ r ∈ s.tasks, ¬(r.id = id ∧ r.UserId = some userId)) :
    updateTask d s userId id body = (.json 404 (.error "Task not found"), s) := by
  have hfind : Task.findOne s { id := some id, UserId := some userId } = none := by
    unfold Task.findOne
    rw [List.find?_eq_none]
    intro r hr hholds
    exact h r hr ((holds_id_owner id userId r).mp hholds)
  unfold updateTask
  rw [hfind]

/-- C2: when the task with the given id is owned by another user, `PUT
/tasks/:id` answers 404 `Task not found` and leaves the store as it is, and
that outcome is the one the same caller gets for an id no stored task has. -/
theorem updateTask_other_owner (d : DateOnly) (s : Store) (hwf : s.WF) (userA userB id : Nat)
    (body : Body) (t : Task) (ht : t ∈ s.tasks) (hid : t.id = id) (hown : t.UserId = some userA)
    (hne : userA ≠ userB) :
    updateTask d s userB id body = (.json 404 (.error "Task not found"), s) ∧
    ∀ (id' : Nat) (body' : Body), (∀ r ∈ s.tasks, r.id ≠ id') →
      updateTask d s userB id' body' = updateTask d s userB id body := by
  have h1 : updateTask d s userB id body = (.json 404 (.error "Task not found"), s) := by
    apply updateTask_not_found
    rintro r hr ⟨hrid, hrown⟩
    have hrt : r = t := List.inj_on_of_nodup_map hwf.1 hr ht (hrid.trans hid.symm)
    rw [hrt, hown] at hrown
    exact hne (Option.some.inj hrown)
  refine ⟨h1, ?_⟩
  intro id' body' hnone
  rw [h1]
  apply updateTask_not_found
  rintro r hr ⟨hrid, _⟩
  exact hnone r hr hrid

/-- C2 (instance): user 2 updating task 1 of user 1 in `withMilk`, compared
with the unused id 7. -/
theorem updateTask_other_owner_witness :
    updateTask plainDates withMilk 2 1 { title := .val "mine" } =
      (.json 404 (.error "Task not found"), withMilk) ∧
    ∀ (id' : Nat) (body' : Body), (∀ r ∈ withMilk.tasks, r.id ≠ id') →
      updateTask plainDates withMilk 2 id' body' =
        updateTask plainDates withMilk 2 1 { title := .val "mine" } :=
  updateTask_other_owner plainDates withMilk (by simp [Store.WF, withMilk, twoUsers, milk]) 1 2 1
    { title := .val "mine" } milk (by simp [withMilk]) rfl rfl (by decide)

/-- C9: for a registered user, `POST /tasks` with the body `{title: X}`
answers 200 with a task that has title `X`, priority `"Medium"` and status
`"Pending"`, and a following `GET /tasks` of that user without filter answers
200 with a list that contains that task. -/
theorem create_then_list (d : DateOnly) (s : Store) (userId : Nat) (x : String)
    (hreg : s.hasUser userId) :
    ∃ t ts, (createTask d s userId { title := .val x }).1 = .json 200 (.task t) ∧
      t.title = x ∧ t.priority = some "Medium" ∧ t.status = some "Pending" ∧
      listTasks (createTask d s userId { title := .val x }).2 userId none none =
        .json 200 (.tasks ts) ∧
      t ∈ ts := by
  have hfk := fkViolated_of_hasUser hreg
  have hany := any_auto_id_false s
  have hcreate : createTask d s userId { title := .val x } =
      (.json 200 (.task (Task.mk (nextRowId s.taskSeq (s.tasks.map (fun r => r.id))) x none none
        (some "Medium") (some "Pending") (some userId))),
       { s with
         tasks := Task.insertRow (Task.mk (nextRowId s.taskSeq (s.tasks.map (fun r => r.id))) x
           none none (some "Medium") (some "Pending") (some userId)) s.tasks,
         taskSeq := max s.taskSeq (nextRowId s.taskSeq (s.tasks.map (fun r => r.id))) }) := by
    simp [createTask, Task.create, Task.insertId, Task.idRefused, Task.stored, DateOnly.onInstance,
      Field.withDefault, hfk, hany]
  rw [hcreate]
  refine ⟨_, _, rfl, rfl, rfl, rfl, rfl, ?_⟩
  simp only [Task.findAll, List.mem_filter]
  refine ⟨(insertRow_perm _ _).mem_iff.mpr (List.mem_cons_self _ _), ?_⟩
  simp [truthy, Where.holds]

/-- C9 (instance): user 1 of `twoUsers` creates the task titled `"X"`. -/
theorem create_then_list_witness :
    ∃ t ts, (createTask plainDates twoUsers 1 { title := .val "X" }).1 = .json 200 (.task t) ∧
      t.title = "X" ∧ t.priority = some "Medium" ∧ t.status = some "Pending" ∧
      listTasks (createTask plainDates twoUsers 1 { title := .val "X" }).2 1 none none =
        .json 200 (.tasks ts) ∧
      t ∈ ts :=
  create_then_list plainDates twoUsers 1 "X" ⟨_, List.mem_cons_self _ _, rfl⟩

/-- C4 (as amended): `POST /tasks` by a registered user.  When `title` is
missing or `null` the answer is 500 with the not-null validation error and the
store is unchanged.  When `title` is given, the id the row gets (the one of the
body, else the next row id) is below `2 ^ 53`, and an id of the body is not the
id of a stored task, the answer is 200 with a task that has that title and is
owned by the caller, and the store gains exactly one row, under a primary key
no stored task had: the returned task with its due date in the `DATEONLY`
rendering. -/
theorem createTask_contract (d : DateOnly) (s : Store) (userId : Nat) (body : Body)
    (hreg : s.hasUser userId) :
    ((body.title = .absent ∨ body.title = .null) →
      createTask d s userId body = (.json 500 (.dbError .notNull), s)) ∧
    (∀ x, body.title = .val x → Task.insertId s body.id < 2 ^ 53 →
      (∀ i, body.id = .val i → ∀ r ∈ s.tasks, r.id ≠ i) →
      ∃ t, (createTask d s userId body).1 = .json 200 (.task t) ∧
        t.title = x ∧ t.UserId = some userId ∧ (∀ r ∈ s.tasks, r.id ≠ t.id) ∧
        ((createTask d s userId body).2.tasks).Perm
          ({ t with dueDate := t.dueDate.map d.format } :: s.tasks) ∧
        (createTask d s userId body).2.users = s.users) := by
  constructor
  · rintro (h | h) <;> simp [createTask, Task.create, h]
  · intro x hx hsafe hid
    have hfk := fkViolated_of_hasUser hreg
    have hfresh : ∀ r ∈ s.tasks, r.id ≠ Task.insertId s body.id := by
      cases hb : body.id with
      | val i => exact hid i hb
      | absent =>
        intro r hr heq
        exact nextRowId_fresh s.taskSeq _ (heq ▸ List.mem_map_of_mem (fun q : Task => q.id) hr)
      | null =>
        intro r hr heq
        exact nextRowId_fresh s.taskSeq _ (heq ▸ List.mem_map_of_mem (fun q : Task => q.id) hr)
    have hany := any_id_eq_false hfresh
    have hok : Task.idRefused body.id = false := by
      cases hb : body.id with
      | val i =>
        rw [hb] at hsafe
        have h1 : i < 2 ^ 53 := hsafe
        have h2 : (2 : Nat) ^ 53 ≤ 2 ^ 63 := by decide
        simp only [Task.idRefused, rowIdLimit, decide_eq_false_iff_not, Nat.not_le]
        omega
      | absent => rfl
      | null => rfl
    have hcreate : createTask d s userId body =
        (.json 200 (.task (Task.mk (Task.insertId s body.id) x
          (body.description.withDefault none) ((d.onInstance body.dueDate).withDefault none)
          (body.priority.withDefault (some "Medium")) (body.status.withDefault (some "Pending"))
          (some userId))),
         { s with
           tasks := Task.insertRow (Task.stored d (Task.mk (Task.insertId s body.id) x
             (body.description.withDefault none) ((d.onInstance body.dueDate).withDefault none)
             (body.priority.withDefault (some "Medium"))
             (body.status.withDefault (some "Pending")) (some userId))) s.tasks,
           taskSeq := max s.taskSeq (Task.insertId s body.id) }) := by
      simp [createTask, Task.create, hx, Field.withDefault, hfk, hany, hok]
    rw [hcreate]
    exact ⟨_, rfl, rfl, rfl, hfresh, insertRow_perm _ _, rfl⟩

/-- C4 (instance): user 1 of `withMilk` posts a body without a title, then a
body with the title `"Tea"` and the due date `""` of the dashboard form; the
last part spells the answer and the stored rows out. -/
theorem createTask_contract_witness :
    createTask plainDates withMilk 1 { priority := .val "Low" } =
      (.json 500 (.dbError .notNull), withMilk) ∧
    (∃ t, (createTask plainDates withMilk 1 { title := .val "Tea", dueDate := .val "" }).1 =
        .json 200 (.task t) ∧
      t.title = "Tea" ∧ t.UserId = some 1 ∧ (∀ r ∈ withMilk.tasks, r.id ≠ t.id) ∧
      ((createTask plainDates withMilk 1 { title := .val "Tea", dueDate := .val "" }).2.tasks).Perm
        ({ t with dueDate := t.dueDate.map plainDates.format } :: withMilk.tasks) ∧
      (createTask plainDates withMilk 1 { title := .val "Tea", dueDate := .val "" }).2.users =
        withMilk.users) ∧
    createTask plainDates withMilk 1 { title := .val "Tea", dueDate := .val "" } =
      (.json 200 (.task ⟨2, "Tea", none, some "", some "Medium", some "Pending", some 1⟩),
       { withMilk with
         tasks := [milk, ⟨2, "Tea", none, some "Invalid date", some "Medium", some "Pending",
           some 1⟩],
         taskSeq := 2 }) :=
  ⟨(createTask_contract plainDates withMilk 1 { priority := .val "Low" }
      ⟨_, List.mem_cons_self _ _, rfl⟩).1 (Or.inl rfl),
   (createTask_contract plainDates withMilk 1 { title := .val "Tea", dueDate := .val "" }
      ⟨_, List.mem_cons_self _ _, rfl⟩).2 "Tea" rfl (by decide) (fun _ h => by cases h),
   by decide⟩

/-- C4 (the claim as stated fails): a body with a title and the `id` of a
stored task is answered 500 with the unique-constraint error, a body with a
title and the `id` `2 ^ 63` is answered 500 with the datatype mismatch, and in
both cases nothing is stored. -/
theorem createTask_with_title_fails :
    createTask plainDates withMilk 1 { title := .val "Tea", id := .val 1 } =
      (.json 500 (.dbError .unique), withMilk) ∧
    createTask plainDates withMilk 1 { title := .val "Tea", id := .val (2 ^ 63) } =
      (.json 500 (.dbError .mismatch), withMilk) := by
  decide

/-- C1 (the code breaks the claim): user 1 creates the task `"X"` and then
sends `PUT /tasks/1` with the body `{UserId: 2}`; the update is accepted and
`GET /tasks` of user 2 returns the task user 1 created. -/
theorem update_hands_task_to_other_user :
    step plainDates twoUsers (.create 1 { title := .val "X" }) =
      (.json 200 (.task ⟨1, "X", none, none, some "Medium", some "Pending", some 1⟩),
        { twoUsers with
          tasks := [⟨1, "X", none, none, some "Medium", some "Pending", some 1⟩],
          taskSeq := 1 }) ∧
    (step plainDates (run plainDates twoUsers [.create 1 { title := .val "X" }])
        (.update 1 1 { UserId := .val 2 })).1 =
      .json 200 (.task ⟨1, "X", none, none, some "Medium", some "Pending", some 2⟩) ∧
    listTasks (run plainDates twoUsers
        [.create 1 { title := .val "X" }, .update 1 1 { UserId := .val 2 }])
        2 (some "Pending") (some "Medium") =
      .json 200 (.tasks [⟨1, "X", none, none, some "Medium", some "Pending", some 2⟩]) := by
  decide

/-! ## Authentication -/

theorem splitSpace_bearer (tok : String) (h : ' ' ∉ tok.data) :
    splitSpace ("Bearer " ++ tok) = ["Bearer", tok] := by
  have hdata : ("Bearer " ++ tok).data = "Bearer".data ++ ' ' :: tok.data := by
    rw [String.data_append]; rfl
  have hfirst : ∀ x ∈ "Bearer".data, ¬((x == ' ') = true) := by decide
  have hrest : ∀ x ∈ tok.data, ¬((x == ' ') = true) := by
    intro x hx hsp
    rw [beq_iff_eq] at hsp
    exact h (hsp ▸ hx)
  unfold splitSpace List.splitOn
  rw [hdata, List.splitOnP_first _ _ hfirst ' ' (by decide), List.splitOnP_eq_single _ _ hrest]
  rfl

theorem authenticate_bearer (jwt : Jwt) (now : Nat) (tok : String) (c : Claims)
    (hdec : jwt.decode tok SECRET_KEY = some c) (hexp : now < c.exp) :
    authenticate jwt now (some ("Bearer " ++ tok)) = .ok c.id := by
  have hsplit := splitSpace_bearer tok (jwt.decode_nospace tok SECRET_KEY c hdec)
  have hne : tok ≠ "" := by
    intro h
    rw [h, jwt.decode_empty] at hdec
    cases hdec
  have hhdr : "Bearer " ++ tok ≠ "" := by
    intro h
    have hlen := congrArg String.length h
    simp only [String.length_append] at hlen
    have h1 : "Bearer ".length = 7 := by decide
    have h2 : "".length = 0 := by decide
    omega
  have hverify : jwt.verify (some tok) SECRET_KEY now = some c := by
    simp [Jwt.verify, hne, hdec, Nat.not_le.mpr hexp]
  simp [authenticate, hhdr, hsplit, hverify]

/-- C6 (as amended): `authenticate` answers 403 when the authorization header
is missing or is the empty string; it answers 401 when the header is not empty
and its second blank-separated piece is missing or empty, does not decode, or
decodes to a payload whose expiry is not after the current time; and for the
header `Bearer <token>` with a token that decodes to a payload not yet expired
it hands on exactly the `id` of that payload. -/
theorem authenticate_contract (jwt : Jwt) (now : Nat) :
    authenticate jwt now none = .error (.json 403 (.error "No token provided")) ∧
    authenticate jwt now (some "") = .error (.json 403 (.error "No token provided")) ∧
    (∀ header, header ≠ "" →
      ((splitSpace header)[1]? = none ∨ (splitSpace header)[1]? = some "") →
      authenticate jwt now (some header) = .error (.json 401 (.error "Unauthorized"))) ∧
    (∀ header tok, header ≠ "" → (splitSpace header)[1]? = some tok →
      jwt.decode tok SECRET_KEY = none →
      authenticate jwt now (some header) = .error (.json 401 (.error "Unauthorized"))) ∧
    (∀ header tok c, header ≠ "" → (splitSpace header)[1]? = some tok →
      jwt.decode tok SECRET_KEY = some c → c.exp ≤ now →
      authenticate jwt now (some header) = .error (.json 401 (.error "Unauthorized"))) ∧
    (∀ tok c, jwt.decode tok SECRET_KEY = some c → now < c.exp →
      authenticate jwt now (some ("Bearer " ++ tok)) = .ok c.id) := by
  refine ⟨rfl, rfl, ?_, ?_, ?_, ?_⟩
  · rintro header hne (h | h) <;> simp [authenticate, hne, h, Jwt.verify]
  · intro header tok hne h hdec
    by_cases htok : tok = "" <;> simp [authenticate, hne, h, Jwt.verify, hdec, htok]
  · intro header tok c hne h hdec hexp
    by_cases htok : tok = "" <;> simp [authenticate, hne, h, Jwt.verify, hdec, htok, hexp]
  · intro tok c hdec hexp
    exact authenticate_bearer jwt now tok c hdec hexp

/-- C6 (instance): the four outcomes for `toyJwt` at time 5, with the token
signed for user 1 at time 0. -/
theorem authenticate_contract_witness :
    authenticate toyJwt 5 none = .error (.json 403 (.error "No token provided")) ∧
    authenticate toyJwt 5 (some "Bearer") = .error (.json 401 (.error "Unauthorized")) ∧
    authenticate toyJwt 5 (some "Bearer x") = .error (.json 401 (.error "Unauthorized")) ∧
    authenticate toyJwt 5 (some ("Bearer " ++ toyJwt.sign 1 SECRET_KEY 0)) = .ok 1 :=
  ⟨(authenticate_contract toyJwt 5).1,
   (authenticate_contract toyJwt 5).2.2.1 "Bearer" (by decide) (Or.inl (by decide)),
   (authenticate_contract toyJwt 5).2.2.2.1 "Bearer x" "x" (by decide) (by decide) (by decide),
   (authenticate_contract toyJwt 5).2.2.2.2.2 (toyJwt.sign 1 SECRET_KEY 0)
     { id := 1, iat := 0, exp := 7200 } (toyJwt.decode_encode _ _) (by decide)⟩

/-- C6 (the claim as stated fails): a request whose authorization header is
present with an empty value, hence without a token, is answered 403 and not
401. -/
theorem authenticate_empty_header_forbidden :
    authenticate toyJwt 0 (some "") = .error (.json 403 (.error "No token provided")) ∧
    authenticate toyJwt 0 (some "") ≠ .error (.json 401 (.error "Unauthorized")) := by
  constructor
  · rfl
  · intro h
    have h1 : authenticate toyJwt 0 (some "") =
        .error (.json 403 (.error "No token provided")) := rfl
    rw [h1] at h
    injection h with h
    injection h with h
    exact absurd h (by decide)

theorem find_by_username (l : List User) (hnd : (l.map (fun r => r.username)).Nodup)
    (u : User) (hu : u ∈ l) :
    l.find? (fun r => r.username == u.username) = some u := by
  induction l with
  | nil => cases hu
  | cons a l ih =>
    by_cases ha : a.username = u.username
    · have hau : a = u :=
        List.inj_on_of_nodup_map hnd (List.mem_cons_self _ _) hu ha
      simp [List.find?_cons, hau]
    · have hul : u ∈ l := by
        rcases List.mem_cons.mp hu with h | h
        · exact absurd (congrArg User.username h.symm) ha
        · exact h
      rw [List.map_cons, List.nodup_cons] at hnd
      simp only [List.find?_cons, beq_eq_false_iff_ne.mpr ha]
      exact ih hnd.2 hul

theorem findOne_of_mem {s : Store} (hwf : s.WF) {u : User} (hu : u ∈ s.users) :
    User.findOne s u.username = some u :=
  find_by_username s.users hwf.2.2 u hu

theorem findOne_none {s : Store} {username : String}
    (h : ∀ u ∈ s.users, u.username ≠ username) : User.findOne s username = none := by
  unfold User.findOne
  rw [List.find?_eq_none]
  intro u hu hb
  exact h u hu (by simpa using hb)

/-- C7: in a store whose usernames are unique, `POST /login` with the username
of a stored user and the password its digest was made from answers 200 with
that username and a token, and `authenticate` hands on the identifier of that
user for the header `Bearer <token>` at any time before 7200 seconds after the
login; with a username no stored user has, or a password that `compare`
rejects against the stored digest, it answers 401 `Invalid credentials`, which
carries no token. -/
theorem login_contract (lib : Bcrypt) (jwt : Jwt) (s : Store) (hwf : s.WF)
    (username password : String) (now : Nat) :
    (∀ u salt, u ∈ s.users → u.username = username → u.password = lib.hash password salt →
      ∃ token, login lib jwt s ⟨some username, some password⟩ now =
          .json 200 (.session token username) ∧
        ∀ later, later < now + 7200 →
          authenticate jwt later (some ("Bearer " ++ token)) = .ok u.id) ∧
    ((∀ u ∈ s.users, u.username ≠ username) →
      login lib jwt s ⟨some username, some password⟩ now =
        .json 401 (.error "Invalid credentials")) ∧
    (∀ u ∈ s.users, u.username = username → lib.compare password u.password = false →
      login lib jwt s ⟨some username, some password⟩ now =
        .json 401 (.error "Invalid credentials")) := by
  refine ⟨?_, ?_, ?_⟩
  · intro u salt hu hname hpw
    have hfind : User.findOne s username = some u := hname ▸ findOne_of_mem hwf hu
    have hcmp : lib.compare password u.password = true := by
      rw [hpw]; exact lib.compare_hash password salt
    refine ⟨jwt.sign u.id SECRET_KEY now, ?_, ?_⟩
    · simp [login, hfind, hcmp]
    · intro later hlater
      exact authenticate_bearer jwt later _ { id := u.id, iat := now, exp := now + 7200 }
        (jwt.decode_encode _ _) hlater
  · intro hnone
    simp [login, findOne_none hnone]
  · intro u hu hname hcmp
    have hfind : User.findOne s username = some u := hname ▸ findOne_of_mem hwf hu
    simp [login, hfind, hcmp]

/-- C7 (instance): in `twoUsers`, whose digests are those of `toyBcrypt`,
alice logs in with `pw1`, an unknown name is refused, and alice is refused
with `pw2`. -/
theorem login_contract_witness :
    (∃ token, login toyBcrypt toyJwt twoUsers ⟨some "alice", some "pw1"⟩ 100 =
        .json 200 (.session token "alice") ∧
      ∀ later, later < 100 + 7200 →
        authenticate toyJwt later (some ("Bearer " ++ token)) = .ok 1) ∧
    login toyBcrypt toyJwt twoUsers ⟨some "carol", some "pw1"⟩ 100 =
      .json 401 (.error "Invalid credentials") ∧
    login toyBcrypt toyJwt twoUsers ⟨some "alice", some "pw2"⟩ 100 =
      .json 401 (.error "Invalid credentials") :=
  ⟨(login_contract toyBcrypt toyJwt twoUsers (by simp [Store.WF, twoUsers]) "alice" "pw1" 100).1
      ⟨1, "alice", "$pw1"⟩ "salt" (by simp [twoUsers]) rfl rfl,
   (login_contract toyBcrypt toyJwt twoUsers (by simp [Store.WF, twoUsers]) "carol" "pw1" 100).2.1
      (by simp [twoUsers]),
   (login_contract toyBcrypt toyJwt twoUsers (by simp [Store.WF, twoUsers]) "alice" "pw2" 100).2.2
      ⟨1, "alice", "$pw1"⟩ (by simp [twoUsers]) rfl (by decide)⟩

/-- C8: `POST /register` with a username and a password.  When a stored user
has the username the answer is 400 `Username likely taken` and the store is
unchanged.  Otherwise the answer is 200 with a new identifier, the store gains
exactly one user with that identifier, the username and the bcrypt digest of
the password, which differs from the password, and any later registration of
the same username on the resulting store is answered 400 and changes
nothing. -/
theorem register_contract (lib : Bcrypt) (s : Store) (username password salt : String) :
    ((∃ u ∈ s.users, u.username = username) →
      register lib s ⟨some username, some password⟩ salt =
        (.json 400 (.error "Username likely taken"), s)) ∧
    ((∀ u ∈ s.users, u.username ≠ username) →
      ∃ id s', register lib s ⟨some username, some password⟩ salt =
          (.json 200 (.created "User created" id), s') ∧
        (∀ u ∈ s.users, u.id ≠ id) ∧
        s'.users = s.users ++ [⟨id, username, lib.hash password salt⟩] ∧
        s'.tasks = s.tasks ∧
        lib.hash password salt ≠ password ∧
        ∀ password' salt', register lib s' ⟨some username, some password'⟩ salt' =
          (.json 400 (.error "Username likely taken"), s')) := by
  have htaken : ∀ (st : Store) (pw sl : String), (∃ u ∈ st.users, u.username = username) →
      register lib st ⟨some username, some pw⟩ sl =
        (.json 400 (.error "Username likely taken"), st) := by
    intro st pw sl hex
    have hany : (st.users.any (fun r => r.username == username)) = true := by
      rw [List.any_eq_true]
      obtain ⟨u, hu, hname⟩ := hex
      exact ⟨u, hu, by simp [hname]⟩
    simp [register, User.create, hany]
  refine ⟨htaken s password salt, ?_⟩
  intro hfree
  have hany : (s.users.any (fun r => r.username == username)) = false := by
    rw [List.any_eq_false]
    intro u hu
    simpa using hfree u hu
  refine ⟨nextRowId s.userSeq (s.users.map (fun r => r.id)),
    Store.mk (s.users ++ [⟨nextRowId s.userSeq (s.users.map (fun r => r.id)), username,
      lib.hash password salt⟩]) s.tasks (nextRowId s.userSeq (s.users.map (fun r => r.id)))
      s.taskSeq, ?_, ?_, rfl, rfl, lib.hash_ne password salt, ?_⟩
  · simp [register, User.create, hany]
  · intro u hu heq
    exact nextRowId_fresh s.userSeq _ (heq ▸ List.mem_map_of_mem (fun q : User => q.id) hu)
  · intro password' salt'
    apply htaken
    exact ⟨_, List.mem_append_right _ (List.mem_cons_self _ _), rfl⟩

/-- C8 (instance): with `toyBcrypt`, bob registers twice on a store that holds
alice, and alice registers again. -/
theorem register_contract_witness :
    register toyBcrypt { twoUsers with users := twoUsers.users.take 1, userSeq := 1 }
        ⟨some "alice", some "pw9"⟩ "salt" =
      (.json 400 (.error "Username likely taken"),
        { twoUsers with users := twoUsers.users.take 1, userSeq := 1 }) ∧
    ∃ id s', register toyBcrypt { twoUsers with users := twoUsers.users.take 1, userSeq := 1 }
          ⟨some "bob", some "pw2"⟩ "salt" =
        (.json 200 (.created "User created" id), s') ∧
      (∀ u ∈ twoUsers.users.take 1, u.id ≠ id) ∧
      s'.users = twoUsers.users.take 1 ++ [⟨id, "bob", toyBcrypt.hash "pw2" "salt"⟩] ∧
      s'.tasks = [] ∧
      toyBcrypt.hash "pw2" "salt" ≠ "pw2" ∧
      ∀ password' salt', register toyBcrypt s' ⟨some "bob", some password'⟩ salt' =
        (.json 400 (.error "Username likely taken"), s') :=
  ⟨(register_contract toyBcrypt { twoUsers with users := twoUsers.users.take 1, userSeq := 1 }
      "alice" "pw9" "salt").1 ⟨⟨1, "alice", "$pw1"⟩, by simp [twoUsers], rfl⟩,
   (register_contract toyBcrypt { twoUsers with users := twoUsers.users.take 1, userSeq := 1 }
      "bob" "pw2" "salt").2 (by simp [twoUsers])⟩

/-- The store `twoUsers` is what two registrations leave of the empty store. -/
theorem twoUsers_registered :
    (register toyBcrypt (register toyBcrypt Store.empty ⟨some "alice", some "pw1"⟩ "s1").2
      ⟨some "bob", some "pw2"⟩ "s2").2 = twoUsers := by
  decide

/-! ## The dashboard form -/

theorem changes_editId (d : Dashboard.State) (cs : List Dashboard.Change) :
    (Dashboard.changes d cs).editId = d.editId := by
  induction cs generalizing d with
  | nil => rfl
  | cons c cs ih =>
    have h := ih (Dashboard.change d c)
    cases c <;> exact h

/-- C10 (as amended): the form starts in create mode with the default fields.
For a task whose id is not `0`, `startEdit` puts the task in the form and its
id in `editId`; the next submit, after any changes typed in the form, sends
`PUT /tasks/<id>` with the form and no `POST`; when that request succeeds the
form is back in create mode with the default fields, and when it fails the
state is left as it was.  A submit in create mode sends `POST /tasks` with the
form and no `PUT`. -/
theorem dashboard_form_modes (d : Dashboard.State) (t : Task) (cs : List Dashboard.Change)
    (hid : t.id ≠ 0) :
    Dashboard.init.editId = none ∧ Dashboard.init.newTask = Dashboard.blankTask ∧
    (Dashboard.startEdit d t).newTask = Dashboard.toJson t ∧
    (Dashboard.startEdit d t).editId = some t.id ∧
    (Dashboard.saveTask (Dashboard.changes (Dashboard.startEdit d t) cs) true).2 =
      [.put t.id (Dashboard.changes (Dashboard.startEdit d t) cs).newTask,
       .get d.filterStatus d.filterPriority] ∧
    (Dashboard.saveTask (Dashboard.changes (Dashboard.startEdit d t) cs) false).2 =
      [.put t.id (Dashboard.changes (Dashboard.startEdit d t) cs).newTask] ∧
    (Dashboard.saveTask (Dashboard.changes (Dashboard.startEdit d t) cs) true).1.editId = none ∧
    (Dashboard.saveTask (Dashboard.changes (Dashboard.startEdit d t) cs) true).1.newTask =
      Dashboard.blankTask ∧
    (Dashboard.saveTask (Dashboard.changes (Dashboard.startEdit d t) cs) false).1 =
      Dashboard.changes (Dashboard.startEdit d t) cs ∧
    (∀ c : Dashboard.State, c.editId = none →
      (Dashboard.saveTask c true).2 = [.post c.newTask, .get c.filterStatus c.filterPriority] ∧
      (Dashboard.saveTask c false).2 = [.post c.newTask] ∧
      (Dashboard.saveTask c true).1.editId = none ∧
      (Dashboard.saveTask c true).1.newTask = Dashboard.blankTask) := by
  have hedit : (Dashboard.changes (Dashboard.startEdit d t) cs).editId = some t.id :=
    changes_editId _ cs
  have hfs : ∀ (e : Dashboard.State) (l : List Dashboard.Change),
      (Dashboard.changes e l).filterStatus = e.filterStatus ∧
      (Dashboard.changes e l).filterPriority = e.filterPriority := by
    intro e l
    induction l generalizing e with
    | nil => exact ⟨rfl, rfl⟩
    | cons c l ih =>
      have h := ih (Dashboard.change e c)
      cases c <;> exact h
  have hf := hfs (Dashboard.startEdit d t) cs
  refine ⟨rfl, rfl, rfl, rfl, ?_, ?_, ?_, ?_, ?_, ?_⟩
  · simp only [Dashboard.saveTask, hedit, hid, if_false, if_true, hf.1, hf.2]
    rfl
  · simp [Dashboard.saveTask, hedit, hid]
  · simp [Dashboard.saveTask, hedit, hid]
  · simp [Dashboard.saveTask, hedit, hid]
  · simp [Dashboard.saveTask, hedit, hid]
  · intro c hc
    simp [Dashboard.saveTask, Dashboard.saveNew, hc]

/-- C10 (instance): the task `milk` is edited from the first state, retitled
and submitted. -/
theorem dashboard_form_modes_witness :
    (Dashboard.saveTask (Dashboard.changes (Dashboard.startEdit Dashboard.init milk)
        [.title "Buy oat milk"]) true).2 =
      [.put 1 (Dashboard.changes (Dashboard.startEdit Dashboard.init milk)
        [.title "Buy oat milk"]).newTask, .get "" ""] ∧
    (Dashboard.saveTask (Dashboard.changes (Dashboard.startEdit Dashboard.init milk)
        [.title "Buy oat milk"]) true).1.editId = none ∧
    (Dashboard.saveTask (Dashboard.changes (Dashboard.startEdit Dashboard.init milk)
        [.title "Buy oat milk"]) true).1.newTask = Dashboard.blankTask :=
  have h := dashboard_form_modes Dashboard.init milk [.title "Buy oat milk"] (by decide)
  ⟨h.2.2.2.2.1, h.2.2.2.2.2.2.1, h.2.2.2.2.2.2.2.1⟩

/-- C10 (the claim as stated fails): the server stores a task under the id
`0` when the body of `POST /tasks` asks for it, and after `startEdit` on that
task the submit sends `POST /tasks` and no `PUT`; and after `startEdit` on
`milk`, a submit whose `PUT` fails leaves the form in edit mode with the
fields of `milk`. -/
theorem dashboard_submit_counterexample :
    (createTask plainDates twoUsers 1
        { id := .val 0, title := .val "Zero", priority := .val "Low" }).1 =
      .json 200 (.task zeroTask) ∧
    (Dashboard.saveTask (Dashboard.startEdit Dashboard.init zeroTask) true).2 =
      [.post (Dashboard.toJson zeroTask), .get "" ""] ∧
    (Dashboard.saveTask (Dashboard.startEdit Dashboard.init milk) false).1.editId = some 1 ∧
    (Dashboard.saveTask (Dashboard.startEdit Dashboard.init milk) false).1.newTask =
      Dashboard.toJson milk ∧
    Dashboard.toJson milk ≠ Dashboard.blankTask := by
  decide

end TaskManager
